import Mathlib

/-!
Shallow embedding of the consumption-ledger core of the `record_water_elc`
repository (src/App.tsx, src/components/ConsumptionTable.tsx, src/types.ts).

Months are the twelve `MonthKey` enumerators, modelled as `Fin 12`
(jan = 0, …, dec = 11).  A row's `values : Record<MonthKey, number>` always
carries all twelve keys, so it is modelled as a total function `Fin 12 → ℚ`.
JavaScript numbers are modelled as exact rationals; `Math.round` is idealised
as `⌊x + 1/2⌋` and `Number.EPSILON` as the rational `2⁻⁵²`.
-/

namespace RecordWaterElc

abbrev Month := Fin 12

/-- Type `RowType` from src/types.ts. -/
inductive RowType where
  | INPUT
  | CALCULATED_TOTAL
deriving DecidableEq

/-- Type `Attachment` from src/types.ts. -/
structure Attachment where
  id : String
  name : String
  mimeType : String
  payload : String
deriving DecidableEq

/-- Type `ConsumptionRow` from src/types.ts.  The optional `attachments` array is
modelled as a plain list (`undefined` ≙ `[]`, the code treats them alike via
`row.attachments || []`). -/
structure ConsumptionRow where
  id : String
  label : String
  type : RowType
  unit : Option String
  isCost : Bool
  values : Month → ℚ
  attachments : List Attachment

/-- Type `SiteData` from src/types.ts. -/
structure SiteData where
  id : String
  name : String
  meterNumber : String
  rows : List ConsumptionRow
  startYear : Option Nat

/-- The App-level state: the template roster plus the per-year active and
archive ledgers (`templateSites`, `dataByYear`, `archivesByYear` in
src/App.tsx).  The JavaScript objects keyed by year are modelled as
association lists with unique keys. -/
structure AppState where
  templateSites : List SiteData
  dataByYear : List (Nat × List SiteData)
  archivesByYear : List (Nat × List SiteData)

instance : DecidableEq ConsumptionRow := fun a b =>
  decidable_of_iff
    (a.id = b.id ∧ a.label = b.label ∧ a.type = b.type ∧ a.unit = b.unit ∧
      a.isCost = b.isCost ∧ a.values = b.values ∧ a.attachments = b.attachments)
    (by cases a; cases b; simp)

instance : DecidableEq SiteData := fun a b =>
  decidable_of_iff
    (a.id = b.id ∧ a.name = b.name ∧ a.meterNumber = b.meterNumber ∧
      a.rows = b.rows ∧ a.startYear = b.startYear)
    (by cases a; cases b; simp)

instance : DecidableEq AppState := fun a b =>
  decidable_of_iff
    (a.templateSites = b.templateSites ∧ a.dataByYear = b.dataByYear ∧
      a.archivesByYear = b.archivesByYear)
    (by cases a; cases b; simp)

/-- Reading a JavaScript object keyed by year: `m[y]`, `undefined` ≙ `none`. -/
def lookupYear (m : List (Nat × List SiteData)) (y : Nat) : Option (List SiteData) :=
  match m with
  | [] => none
  | (y', v) :: rest => if y' = y then some v else lookupYear rest y

/-- Writing a JavaScript object keyed by year: `{...m, [y]: v}`. -/
def setYear (m : List (Nat × List SiteData)) (y : Nat) (v : List SiteData) :
    List (Nat × List SiteData) :=
  match m with
  | [] => [(y, v)]
  | (y', v') :: rest => if y' = y then (y, v) :: rest else (y', v') :: setYear rest y v

/-- In-place update of one array slot, `a[i] = f(a[i])`; out-of-range indices
leave the list unchanged. -/
def modifyAt (l : List α) (i : Nat) (f : α → α) : List α :=
  match l, i with
  | [], _ => []
  | x :: xs, 0 => f x :: xs
  | x :: xs, n + 1 => x :: modifyAt xs n f

/-- JavaScript `Array.prototype.findIndex`, returning `none` instead of `-1`. -/
def findIndex (p : α → Bool) : List α → Option Nat
  | [] => none
  | a :: as => if p a then some 0 else (findIndex p as).map (· + 1)

/-- Constant `Number.EPSILON` (2⁻⁵²). -/
def jsEpsilon : ℚ := 1 / 2 ^ 52

/-- Function `safeFloat` from src/components/ConsumptionTable.tsx (line 442):
`Math.round((num + Number.EPSILON) * 100) / 100`. -/
def safeFloat (num : ℚ) : ℚ := (⌊(num + jsEpsilon) * 100 + 1 / 2⌋ : ℤ) / 100

/-- Pointwise update of a month map: `{ ...values, [month]: x }`. -/
def updateMonth (vals : Month → ℚ) (m : Month) (x : ℚ) : Month → ℚ :=
  fun m' => if m' = m then x else vals m'

/-- Update `{ ...row, values: { ...row.values, [month]: x } }`. -/
def setCell (month : Month) (x : ℚ) (row : ConsumptionRow) : ConsumptionRow :=
  { row with values := updateMonth row.values month x }

/-- The predicate `r.type === RowType.CALCULATED_TOTAL` used by the code's
`find`/`findIndex` calls. -/
def isTotalRow (r : ConsumptionRow) : Bool := r.type == RowType.CALCULATED_TOTAL

/-- One step of the vertical cost sum of `handleInputChange`
(ConsumptionTable.tsx lines 543-548): add the row's value for the month —
rounding with `safeFloat` — when `r.type === RowType.INPUT && r.isCost`. -/
def costStep (month : Month) (acc : ℚ) (r : ConsumptionRow) : ℚ :=
  if r.type = RowType.INPUT ∧ r.isCost = true then safeFloat (acc + r.values month)
  else acc

/-- The vertical cost sum of `handleInputChange` (ConsumptionTable.tsx lines
541-548): running sum over rows with `type === INPUT && isCost`, rounded by
`safeFloat` after every addition. -/
def monthTotalCost (rows : List ConsumptionRow) (month : Month) : ℚ :=
  rows.foldl (costStep month) 0

/-- The per-site body of `handleInputChange` (ConsumptionTable.tsx lines
522-557): write the cell, then — if the site has a CALCULATED_TOTAL row —
recompute that row's value for the edited month. -/
def editSite (rowIndex : Nat) (month : Month) (value : ℚ) (site : SiteData) : SiteData :=
  let rows1 := modifyAt site.rows rowIndex (setCell month value)
  match findIndex isTotalRow rows1 with
  | none => { site with rows := rows1 }
  | some totalIdx =>
    { site with rows := modifyAt rows1 totalIdx (setCell month (monthTotalCost rows1 month)) }

/-- Function `handleInputChange` (a.k.a. `setCellValue`) acting on the year's site
list. -/
def handleInputChange (data : List SiteData) (siteIndex rowIndex : Nat)
    (month : Month) (value : ℚ) : List SiteData :=
  modifyAt data siteIndex (editSite rowIndex month value)

/-- The `startYear` visibility test of `currentSitesData` (App.tsx line 97):
`!site.startYear || site.startYear <= currentYear`. -/
def sitePassesYear (s : SiteData) (year : Nat) : Bool :=
  match s.startYear with
  | none => true
  | some sy => decide (sy ≤ year)

/-- Function `currentSitesData` (a.k.a. `getActiveSites`, App.tsx lines 88-99): the
materialized entry for the year if present, otherwise a clone of the
template; in either case filtered by the `startYear` test. -/
def currentSitesData (st : AppState) (year : Nat) : List SiteData :=
  (match lookupYear st.dataByYear year with
   | some d => d
   | none => st.templateSites).filter (fun s => sitePassesYear s year)

/-- Function `currentArchivedData` (App.tsx lines 102-104). -/
def currentArchivedData (st : AppState) (year : Nat) : List SiteData :=
  (lookupYear st.archivesByYear year).getD []

/-- Function `handleDataChange` (a.k.a. `setActiveSites`, App.tsx lines 107-112). -/
def handleDataChange (st : AppState) (year : Nat) (newData : List SiteData) : AppState :=
  { st with dataByYear := setYear st.dataByYear year newData }

/-- The `appendSiteToYear` helper of `handleGlobalAddSite` (App.tsx lines
123-130), restricted to a materialized list. -/
def appendIfMissing (l : List SiteData) (s : SiteData) : List SiteData :=
  if l.any (fun x => x.id == s.id) then l else l ++ [s]

/-- Function `handleGlobalAddSite` (a.k.a. `addSiteGlobally`, App.tsx lines 115-147):
append to the template; materialize the current year (from the pre-append
template) or append there; append to every materialized year strictly after
the current year where the id is absent. -/
def handleGlobalAddSite (st : AppState) (currentYear : Nat) (newSite : SiteData) : AppState :=
  let data1 :=
    match lookupYear st.dataByYear currentYear with
    | none => setYear st.dataByYear currentYear (st.templateSites ++ [newSite])
    | some l => setYear st.dataByYear currentYear (appendIfMissing l newSite)
  let data2 := data1.map
    (fun p => (p.1, if currentYear < p.1 then appendIfMissing p.2 newSite else p.2))
  { st with templateSites := st.templateSites ++ [newSite], dataByYear := data2 }

/-- The partial metadata update `{name?, meterNumber?}` passed to
`handleSiteMetadataUpdate`. -/
structure SiteMetadataUpdate where
  name : Option String
  meterNumber : Option String

/-- Update `{ ...s, ...updates }` for a metadata update. -/
def applyUpdates (u : SiteMetadataUpdate) (s : SiteData) : SiteData :=
  { s with name := u.name.getD s.name, meterNumber := u.meterNumber.getD s.meterNumber }

/-- The `updateList` helper of `handleSiteMetadataUpdate` (App.tsx lines
151-156). -/
def updateList (u : SiteMetadataUpdate) (siteId : String) (l : List SiteData) :
    List SiteData :=
  l.map (fun s => if s.id == siteId then applyUpdates u s else s)

/-- Function `handleSiteMetadataUpdate` (a.k.a. `updateSiteMetadata`, App.tsx lines
150-177): apply the partial update to matching sites in the template, every
materialized year, and every archived year. -/
def handleSiteMetadataUpdate (st : AppState) (siteId : String) (u : SiteMetadataUpdate) :
    AppState :=
  { templateSites := updateList u siteId st.templateSites,
    dataByYear := st.dataByYear.map (fun p => (p.1, updateList u siteId p.2)),
    archivesByYear := st.archivesByYear.map (fun p => (p.1, updateList u siteId p.2)) }

/-- Function `handleArchiveSite` (a.k.a. `archiveSite`, App.tsx lines 179-190). -/
def handleArchiveSite (st : AppState) (year : Nat) (siteId : String) : AppState :=
  match (currentSitesData st year).find? (fun s => s.id == siteId) with
  | none => st
  | some siteToArchive =>
    let st1 := handleDataChange st year
      ((currentSitesData st year).filter (fun s => !(s.id == siteId)))
    { st1 with archivesByYear :=
        setYear st.archivesByYear year (currentArchivedData st year ++ [siteToArchive]) }

/-- Function `handleRestoreSite` (a.k.a. `restoreSite`, App.tsx lines 192-202). -/
def handleRestoreSite (st : AppState) (year : Nat) (siteId : String) : AppState :=
  match (currentArchivedData st year).find? (fun s => s.id == siteId) with
  | none => st
  | some siteToRestore =>
    let arch1 := setYear st.archivesByYear year
      ((currentArchivedData st year).filter (fun s => !(s.id == siteId)))
    let st1 := { st with archivesByYear := arch1 }
    handleDataChange st1 year (currentSitesData st year ++ [siteToRestore])

/-- The state update performed by `handleFileSelect`'s reader callback
(ConsumptionTable.tsx lines 598-618): append the new attachment to the
targeted row's attachment list. -/
def uploadAttachment (data : List SiteData) (siteIndex rowIndex : Nat)
    (att : Attachment) : List SiteData :=
  let addAtt := fun row => { row with attachments := row.attachments ++ [att] }
  modifyAt data siteIndex (fun site =>
    { site with rows := modifyAt site.rows rowIndex addAtt })

/-- Function `calculateHorizontalTotal` (ConsumptionTable.tsx lines 818-821). -/
def calculateHorizontalTotal (values : Month → ℚ) : ℚ :=
  safeFloat ((List.finRange 12).foldl (fun s m => s + values m) 0)

/-- One site's contribution step of `grandTotals` (ConsumptionTable.tsx lines
836-852): add — with `safeFloat` after every addition — the site's
CALCULATED_TOTAL row value, or, for a site without one, each of its `isCost`
row values. -/
def grandStep (month : Month) (acc : ℚ) (site : SiteData) : ℚ :=
  match site.rows.find? isTotalRow with
  | some totalRow => safeFloat (acc + totalRow.values month)
  | none =>
    (site.rows.filter (fun r => r.isCost)).foldl
      (fun a r => safeFloat (a + r.values month)) acc

/-- Function `grandTotals` for one month (ConsumptionTable.tsx lines 830-855). -/
def grandTotalsMonth (data : List SiteData) (month : Month) : ℚ :=
  data.foldl (grandStep month) 0

/-- The first CALCULATED_TOTAL row of a site, as located by the code
(`find`/`findIndex` on `r.type === RowType.CALCULATED_TOTAL`). -/
def findTotalRow (s : SiteData) : Option ConsumptionRow :=
  s.rows.find? isTotalRow

/-- The month value of a site's CALCULATED_TOTAL row, when it has one. -/
def calcTotalValue? (s : SiteData) (month : Month) : Option ℚ :=
  (findTotalRow s).map (fun r => r.values month)

/-- A sequence of `setCellValue` edits: (siteIndex, rowIndex, month, value). -/
def applyEdits (data : List SiteData) (edits : List (Nat × Nat × Month × ℚ)) :
    List SiteData :=
  edits.foldl (fun d e => handleInputChange d e.1 e.2.1 e.2.2.1 e.2.2.2) data

/-- Follows the spec's words (§8, property 1): `round2`, rounding a value to 2
decimal places (half-up), stated for comparison with the implementation's
per-addition rounding. -/
def round2Spec (q : ℚ) : ℚ := (⌊q * 100 + 1 / 2⌋ : ℤ) / 100

/-- Follows the spec's words (§8, property 1): the exact (unrounded) sum of
`values[month]` over the rows with `kind = INPUT` and `isCost = true`. -/
def costSumSpec (rows : List ConsumptionRow) (month : Month) : ℚ :=
  (rows.filter (fun r => r.type == RowType.INPUT && r.isCost)).foldl
    (fun a r => a + r.values month) 0

/-- Follows the spec's words (§4.1, §8 property 2): one site's contribution
to the exact (unrounded) grand total. -/
def grandStepSpec (month : Month) (acc : ℚ) (site : SiteData) : ℚ :=
  match site.rows.find? isTotalRow with
  | some totalRow => acc + totalRow.values month
  | none =>
    (site.rows.filter (fun r => r.isCost)).foldl (fun a r => a + r.values month) acc

/-- Follows the spec's words (§4.1, §8 property 2): the per-month grand total
as the exact sum over all sites of the site's CALCULATED_TOTAL row value, a
site without one contributing the exact sum of its `isCost` rows. -/
def grandTotalSpec (data : List SiteData) (month : Month) : ℚ :=
  data.foldl (grandStepSpec month) 0

/-! ### Basic lemmas about the embedding's list and ledger helpers -/

lemma rowType_beq (a b : RowType) : (a == b) = decide (a = b) := rfl

lemma lookupYear_setYear_self (m : List (Nat × List SiteData)) (y : Nat)
    (v : List SiteData) : lookupYear (setYear m y v) y = some v := by
  induction m with
  | nil => simp [setYear, lookupYear]
  | cons hd tl ih =>
    obtain ⟨y', v'⟩ := hd
    by_cases h : y' = y <;> simp [setYear, lookupYear, h, ih]

lemma lookupYear_setYear_ne (m : List (Nat × List SiteData)) {y y' : Nat}
    (v : List SiteData) (h : y' ≠ y) :
    lookupYear (setYear m y' v) y = lookupYear m y := by
  induction m with
  | nil => simp [setYear, lookupYear, h]
  | cons hd tl ih =>
    obtain ⟨y'', v''⟩ := hd
    by_cases h2 : y'' = y' <;> simp [setYear, lookupYear, h2, h, ih]

lemma lookupYear_map (g : Nat → List SiteData → List SiteData)
    (m : List (Nat × List SiteData)) (y : Nat) :
    lookupYear (m.map (fun p => (p.1, g p.1 p.2))) y = (lookupYear m y).map (g y) := by
  induction m with
  | nil => simp [lookupYear]
  | cons hd tl ih =>
    obtain ⟨y', v'⟩ := hd
    by_cases h : y' = y
    · subst h; simp [lookupYear]
    · simp [lookupYear, h, ih]

lemma modifyAt_get? (l : List α) (i : Nat) (f : α → α) (j : Nat) :
    (modifyAt l i f).get? j = if i = j then (l.get? j).map f else l.get? j := by
  induction l generalizing i j with
  | nil => simp [modifyAt]
  | cons x xs ih =>
    cases i with
    | zero => cases j <;> simp [modifyAt]
    | succ n =>
      cases j with
      | zero => simp [modifyAt]
      | succ k => simpa [modifyAt] using ih n k

lemma findIndex_eq_none_iff (p : α → Bool) (l : List α) :
    findIndex p l = none ↔ ∀ a ∈ l, p a = false := by
  induction l with
  | nil => simp [findIndex]
  | cons x xs ih =>
    by_cases h : p x = true <;> simp [findIndex, h, ih]

lemma findIndex_some (p : α → Bool) (l : List α) (i : Nat)
    (h : findIndex p l = some i) : ∃ r, l.get? i = some r ∧ p r = true := by
  induction l generalizing i with
  | nil => simp [findIndex] at h
  | cons x xs ih =>
    by_cases hx : p x = true
    · simp [findIndex, hx] at h
      subst h
      exact ⟨x, rfl, hx⟩
    · simp [findIndex, hx] at h
      obtain ⟨i', hi', rfl⟩ := h
      obtain ⟨r, hr, hpr⟩ := ih i' hi'
      exact ⟨r, hr, hpr⟩

lemma find?_eq_of_findIndex (p : α → Bool) (l : List α) (i : Nat)
    (h : findIndex p l = some i) : l.find? p = l.get? i := by
  induction l generalizing i with
  | nil => simp [findIndex] at h
  | cons x xs ih =>
    by_cases hx : p x = true
    · simp [findIndex, hx] at h
      subst h
      rw [List.find?_cons_of_pos _ hx, List.get?_cons_zero]
    · simp [findIndex, hx] at h
      obtain ⟨i', hi', rfl⟩ := h
      rw [List.find?_cons_of_neg _ hx, List.get?_cons_succ]
      exact ih i' hi'

lemma findIndex_modifyAt (p : α → Bool) (f : α → α) (hp : ∀ a, p (f a) = p a)
    (l : List α) (i : Nat) : findIndex p (modifyAt l i f) = findIndex p l := by
  induction l generalizing i with
  | nil => simp [modifyAt]
  | cons x xs ih =>
    cases i with
    | zero => simp [modifyAt, findIndex, hp x]
    | succ n => simp [modifyAt, findIndex, ih n]

lemma find?_modifyAt (p : α → Bool) (f : α → α) (hp : ∀ a, p (f a) = p a)
    (l : List α) (i : Nat) (h : findIndex p l = some i) :
    (modifyAt l i f).find? p = (l.get? i).map f := by
  induction l generalizing i with
  | nil => simp [findIndex] at h
  | cons x xs ih =>
    by_cases hx : p x = true
    · simp [findIndex, hx] at h
      subst h
      have hfx : p (f x) = true := (hp x).trans hx
      rw [show modifyAt (x :: xs) 0 f = f x :: xs from rfl,
        List.find?_cons_of_pos _ hfx, List.get?_cons_zero, Option.map_some']
    · simp [findIndex, hx] at h
      obtain ⟨i', hi', rfl⟩ := h
      have hfx : ¬ p (f x) = true := by rw [hp x]; exact hx
      rw [show modifyAt (x :: xs) (i' + 1) f = x :: modifyAt xs i' f from rfl,
        List.find?_cons_of_neg _ hx, List.get?_cons_succ]
      exact ih i' hi'

lemma mem_modifyAt (l : List α) (i : Nat) (f : α → α) (x : α)
    (h : x ∈ modifyAt l i f) :
    x ∈ l ∨ ∃ r, l.get? i = some r ∧ x = f r := by
  rw [List.mem_iff_get?] at h
  obtain ⟨j, hj⟩ := h
  rw [modifyAt_get?] at hj
  by_cases hij : i = j
  · rw [if_pos hij] at hj
    obtain ⟨r, hr, rfl⟩ := Option.map_eq_some'.mp hj
    exact Or.inr ⟨r, hij ▸ hr, rfl⟩
  · rw [if_neg hij] at hj
    exact Or.inl (List.get?_mem hj)

/-! ### The per-site total invariant and its preservation by `setCellValue` -/

/-- The cost fold only looks at a row's `type`, `isCost` and its value for the
month, so modifying one slot in a way that preserves those (or that touches a
row not counted by the fold) leaves the fold unchanged. -/
lemma foldl_costStep_modifyAt (month : Month) (l : List ConsumptionRow) (i : Nat)
    (f : ConsumptionRow → ConsumptionRow)
    (h : ∀ r, l.get? i = some r →
      (f r).type = r.type ∧ (f r).isCost = r.isCost ∧
        (r.type = RowType.INPUT → r.isCost = true → (f r).values month = r.values month)) :
    ∀ acc : ℚ, (modifyAt l i f).foldl (costStep month) acc = l.foldl (costStep month) acc := by
  induction l generalizing i with
  | nil => intro acc; simp [modifyAt]
  | cons x xs ih =>
    intro acc
    cases i with
    | zero =>
      obtain ⟨ht, hc, hv⟩ := h x rfl
      show List.foldl (costStep month) (costStep month acc (f x)) xs
          = List.foldl (costStep month) (costStep month acc x) xs
      congr 1
      unfold costStep
      rw [ht, hc]
      by_cases hx : x.type = RowType.INPUT ∧ x.isCost = true
      · rw [if_pos hx, if_pos hx, hv hx.1 hx.2]
      · rw [if_neg hx, if_neg hx]
    | succ n =>
      show List.foldl (costStep month) (costStep month acc x) (modifyAt xs n f)
          = List.foldl (costStep month) (costStep month acc x) xs
      exact ih n (fun r hr => h r hr) _

lemma monthTotalCost_modifyAt (month : Month) (l : List ConsumptionRow) (i : Nat)
    (f : ConsumptionRow → ConsumptionRow)
    (h : ∀ r, l.get? i = some r →
      (f r).type = r.type ∧ (f r).isCost = r.isCost ∧
        (r.type = RowType.INPUT → r.isCost = true → (f r).values month = r.values month)) :
    monthTotalCost (modifyAt l i f) month = monthTotalCost l month :=
  foldl_costStep_modifyAt month l i f h 0

lemma isTotalRow_setCell (mo : Month) (x : ℚ) (r : ConsumptionRow) :
    isTotalRow (setCell mo x r) = isTotalRow r := rfl

lemma editSite_eq_none {ri : Nat} {mo : Month} {v : ℚ} {site : SiteData}
    (h : findIndex isTotalRow (modifyAt site.rows ri (setCell mo v)) = none) :
    editSite ri mo v site = { site with rows := modifyAt site.rows ri (setCell mo v) } := by
  simp only [editSite, h]

lemma editSite_eq_some {ri : Nat} {mo : Month} {v : ℚ} {site : SiteData} {ti : Nat}
    (h : findIndex isTotalRow (modifyAt site.rows ri (setCell mo v)) = some ti) :
    editSite ri mo v site =
      { site with rows := modifyAt (modifyAt site.rows ri (setCell mo v)) ti (setCell mo (monthTotalCost (modifyAt site.rows ri (setCell mo v)) mo)) } := by
  simp only [editSite, h]

/-- The per-site invariant maintained by `handleInputChange`: the (first)
CALCULATED_TOTAL row stores, for every month, the rounding-safe running cost
sum over the site's rows. -/
def siteTotalOK (s : SiteData) : Prop :=
  ∀ t, findTotalRow s = some t → ∀ m : Month, t.values m = monthTotalCost s.rows m

lemma siteTotalOK_editSite (ri : Nat) (mo : Month) (v : ℚ) {site : SiteData}
    (h : siteTotalOK site) : siteTotalOK (editSite ri mo v site) := by
  cases hfi : findIndex isTotalRow (modifyAt site.rows ri (setCell mo v)) with
  | none =>
    rw [editSite_eq_none hfi]
    intro t ht
    exfalso
    have hnone : (modifyAt site.rows ri (setCell mo v)).find? isTotalRow = none := by
      rw [List.find?_eq_none]
      intro x hx
      simp [(findIndex_eq_none_iff _ _).mp hfi x hx]
    rw [findTotalRow] at ht
    simp only at ht
    rw [hnone] at ht
    exact Option.noConfusion ht
  | some ti =>
    rw [editSite_eq_some hfi]
    intro t ht m
    obtain ⟨rt, hget, hprt⟩ := findIndex_some _ _ _ hfi
    rw [findTotalRow] at ht
    simp only at ht
    rw [find?_modifyAt isTotalRow _ (isTotalRow_setCell mo _) _ ti hfi, hget,
      Option.map_some'] at ht
    have htval : t = setCell mo (monthTotalCost (modifyAt site.rows ri (setCell mo v)) mo) rt :=
      (Option.some.injEq _ _ ▸ ht).symm
    have hrt_type : rt.type = RowType.CALCULATED_TOTAL := by
      have := hprt
      rw [isTotalRow, rowType_beq, decide_eq_true_eq] at this
      exact this
    -- the second modification (writing the total row) does not change the fold
    have hsum2 : monthTotalCost
        (modifyAt (modifyAt site.rows ri (setCell mo v)) ti
          (setCell mo (monthTotalCost (modifyAt site.rows ri (setCell mo v)) mo)))
        m = monthTotalCost (modifyAt site.rows ri (setCell mo v)) m := by
      apply monthTotalCost_modifyAt
      intro r hr
      rw [hget] at hr
      obtain rfl : rt = r := by injection hr
      refine ⟨rfl, rfl, ?_⟩
      intro hIn
      rw [hrt_type] at hIn
      exact absurd hIn (by intro hcontra; exact RowType.noConfusion hcontra)
    rw [hsum2]
    subst htval
    show updateMonth rt.values mo _ m = _
    rw [updateMonth]
    by_cases hm : m = mo
    · subst hm; rw [if_pos rfl]
    · rw [if_neg hm]
      -- the first modification (writing the edited cell) does not change the
      -- fold at a different month
      have hsum1 : monthTotalCost (modifyAt site.rows ri (setCell mo v)) m
          = monthTotalCost site.rows m := by
        apply monthTotalCost_modifyAt
        intro r _
        refine ⟨rfl, rfl, ?_⟩
        intro _ _
        show updateMonth r.values mo v m = r.values m
        rw [updateMonth, if_neg hm]
      rw [hsum1]
      -- locate the total row in the original rows
      have hfi0 : findIndex isTotalRow site.rows = some ti := by
        rw [← findIndex_modifyAt isTotalRow (setCell mo v) (isTotalRow_setCell mo v)
          site.rows ri]
        exact hfi
      obtain ⟨r0, hget0, _⟩ := findIndex_some _ _ _ hfi0
      have hfind0 : site.rows.find? isTotalRow = some r0 := by
        rw [find?_eq_of_findIndex _ _ _ hfi0, hget0]
      have hval0 := h r0 hfind0 m
      -- rt agrees with r0 at month m
      have hrt0 : rt.values m = r0.values m := by
        rw [modifyAt_get?] at hget
        by_cases hri : ri = ti
        · rw [if_pos hri, hget0, Option.map_some'] at hget
          obtain rfl : setCell mo v r0 = rt := by injection hget
          show updateMonth r0.values mo v m = r0.values m
          rw [updateMonth, if_neg hm]
        · rw [if_neg hri] at hget
          rw [hget0] at hget
          obtain rfl : r0 = rt := by injection hget
          rfl
      rw [hrt0, hval0]

lemma handleInputChange_siteTotalOK (data : List SiteData) (si ri : Nat)
    (mo : Month) (v : ℚ) (h : ∀ s ∈ data, siteTotalOK s) :
    ∀ s ∈ handleInputChange data si ri mo v, siteTotalOK s := by
  intro s hs
  rcases mem_modifyAt data si (editSite ri mo v) s hs with hmem | ⟨r, hr, rfl⟩
  · exact h s hmem
  · exact siteTotalOK_editSite ri mo v (h r (List.get?_mem hr))

/-! ### Concrete fixtures for witnesses and counterexamples -/

/-- The all-zero month map a freshly created row starts with. -/
def zeroVals : Month → ℚ := fun _ => 0

def mkRow (i : String) (t : RowType) (c : Bool) (vals : Month → ℚ) : ConsumptionRow :=
  { id := i, label := "", type := t, unit := none, isCost := c, values := vals,
    attachments := [] }

def mkSite (i : String) (rows : List ConsumptionRow) : SiteData :=
  { id := i, name := "", meterNumber := "", rows := rows, startYear := none }

/-- A site in the shape produced by `handleAddSite`: input rows (two of them
cost rows) plus a CALCULATED_TOTAL row, all months zero. -/
def siteA : SiteData :=
  mkSite "s1"
    [mkRow "r1" RowType.INPUT true zeroVals, mkRow "r2" RowType.INPUT true zeroVals,
     mkRow "rt" RowType.CALCULATED_TOTAL false zeroVals]

/-- A site with a single cost row and no CALCULATED_TOTAL row. -/
def siteB : SiteData := mkSite "s2" [mkRow "r1" RowType.INPUT true zeroVals]

lemma safeFloat_zero : safeFloat 0 = 0 := by
  rw [safeFloat, jsEpsilon]
  norm_num

lemma siteA_totalOK : ∀ s ∈ [siteA], siteTotalOK s := by
  intro s hs
  simp only [List.mem_singleton] at hs
  subst hs
  intro t ht m
  simp [findTotalRow, siteA, mkSite, mkRow, isTotalRow, rowType_beq, List.find?] at ht
  subst ht
  simp [monthTotalCost, costStep, zeroVals, safeFloat_zero, siteA, mkSite, mkRow]

/-! ### C1 — the total-row invariant under `setCellValue` -/

/-- The state reached from `siteA` by two `setCellValue` calls writing 0.004
(= 1/250) into the two cost rows for january. -/
def c1Data : List SiteData :=
  applyEdits [siteA] [(0, 0, 0, 1 / 250), (0, 1, 0, 1 / 250)]

/-- C1 as stated is false: after setting the two january cost cells to 0.004,
the implementation's total row holds 0 (it rounds to 2 decimals after every
addition, so each 0.004 rounds away), while `round2` of the exact sum is
0.01. -/
theorem C1_roundtwice_counterexample :
    calcTotalValue? (c1Data.getD 0 siteA) 0 = some 0 ∧
    round2Spec (costSumSpec (c1Data.getD 0 siteA).rows 0) = 1 / 100 ∧
    calcTotalValue? (c1Data.getD 0 siteA) 0
      ≠ some (round2Spec (costSumSpec (c1Data.getD 0 siteA).rows 0)) := by
  have h1 : calcTotalValue? (c1Data.getD 0 siteA) 0 = some 0 := by
    simp [c1Data, applyEdits, handleInputChange, editSite, modifyAt, findIndex, siteA,
      mkSite, mkRow, calcTotalValue?, findTotalRow, isTotalRow, monthTotalCost, costStep,
      setCell, updateMonth, zeroVals, List.foldl, List.find?, rowType_beq]
    norm_num [safeFloat, jsEpsilon]
  have h2 : round2Spec (costSumSpec (c1Data.getD 0 siteA).rows 0) = 1 / 100 := by
    simp [c1Data, applyEdits, handleInputChange, editSite, modifyAt, findIndex, siteA,
      mkSite, mkRow, costSumSpec, monthTotalCost, costStep, setCell, updateMonth, zeroVals,
      List.foldl, List.filter, List.find?, rowType_beq]
    norm_num [round2Spec, safeFloat, jsEpsilon]
  refine ⟨h1, h2, ?_⟩
  rw [h1, h2]
  intro hcontra
  have := Option.some.inj hcontra
  norm_num at this

/-- **C1** (amended). For every Site that has a CALCULATED_TOTAL row, after
any sequence of `setCellValue` calls starting from a state satisfying the
invariant, and for every month, the CALCULATED_TOTAL row's value for that
month equals `monthTotalCost` — the rounding-safe running sum over the Site's
INPUT rows with `isCost = true`, `round2` being applied after every addition
(not once to the exact sum, which differs; see the counterexample). -/
theorem C1_total_invariant (data : List SiteData)
    (h0 : ∀ s ∈ data, siteTotalOK s) (edits : List (Nat × Nat × Month × ℚ)) :
    ∀ s ∈ applyEdits data edits, ∀ t, findTotalRow s = some t →
      ∀ m : Month, t.values m = monthTotalCost s.rows m := by
  suffices h : ∀ s ∈ applyEdits data edits, siteTotalOK s by
    intro s hs
    exact h s hs
  induction edits generalizing data with
  | nil => simpa [applyEdits] using h0
  | cons e es ih =>
    exact ih _ (handleInputChange_siteTotalOK data e.1 e.2.1 e.2.2.1 e.2.2.2 h0)

/-- Witness for C1: the invariant hypothesis holds of `[siteA]` and the
theorem applies to a concrete edit. -/
theorem C1_total_invariant_witness :
    (∀ s ∈ [siteA], siteTotalOK s) ∧
      (∀ s ∈ applyEdits [siteA] [(0, 0, 0, 5)], ∀ t, findTotalRow s = some t →
        ∀ m : Month, t.values m = monthTotalCost s.rows m) :=
  ⟨siteA_totalOK, C1_total_invariant [siteA] siteA_totalOK [(0, 0, 0, 5)]⟩

/-! ### C10 — `setCellValue` on a site without a CALCULATED_TOTAL row -/

/-- **C10** (confirmed). A `setCellValue` call on a site whose rows contain no
CALCULATED_TOTAL row succeeds and performs exactly the single-cell update:
every other site is unchanged, every other row is unchanged, the targeted
row keeps all its fields and all its other months, and no total
recomputation occurs (the resulting site is literally the one-cell update). -/
theorem C10_no_total_frame (data : List SiteData) (si ri : Nat) (mo : Month)
    (v : ℚ) (site : SiteData) (hs : data.get? si = some site)
    (hnotot : ∀ r ∈ site.rows, r.type ≠ RowType.CALCULATED_TOTAL) :
    (∀ j, j ≠ si → (handleInputChange data si ri mo v).get? j = data.get? j)
    ∧ (handleInputChange data si ri mo v).get? si
        = some { site with rows := modifyAt site.rows ri (setCell mo v) }
    ∧ (∀ k, k ≠ ri → (modifyAt site.rows ri (setCell mo v)).get? k = site.rows.get? k)
    ∧ (∀ r, site.rows.get? ri = some r →
        (modifyAt site.rows ri (setCell mo v)).get? ri = some (setCell mo v r)
        ∧ (setCell mo v r).values mo = v
        ∧ (∀ m, m ≠ mo → (setCell mo v r).values m = r.values m)
        ∧ (setCell mo v r).id = r.id ∧ (setCell mo v r).label = r.label
        ∧ (setCell mo v r).type = r.type ∧ (setCell mo v r).isCost = r.isCost
        ∧ (setCell mo v r).attachments = r.attachments) := by
  have hnone : findIndex isTotalRow (modifyAt site.rows ri (setCell mo v)) = none := by
    rw [findIndex_modifyAt isTotalRow (setCell mo v) (isTotalRow_setCell mo v)]
    rw [findIndex_eq_none_iff]
    intro r hr
    rw [isTotalRow, rowType_beq]
    exact decide_eq_false (hnotot r hr)
  refine ⟨?_, ?_, ?_, ?_⟩
  · intro j hj
    rw [handleInputChange, modifyAt_get?, if_neg (fun hsj => hj hsj.symm)]
  · rw [handleInputChange, modifyAt_get?, if_pos rfl, hs, Option.map_some',
      editSite_eq_none hnone]
  · intro k hk
    rw [modifyAt_get?, if_neg (fun hrk => hk hrk.symm)]
  · intro r hr
    refine ⟨by rw [modifyAt_get?, if_pos rfl, hr, Option.map_some'], ?_, ?_, rfl, rfl,
      rfl, rfl, rfl⟩
    · show updateMonth r.values mo v mo = v
      rw [updateMonth, if_pos rfl]
    · intro m hm
      show updateMonth r.values mo v m = r.values m
      rw [updateMonth, if_neg hm]

/-- Witness for C10 at a concrete two-site state. -/
theorem C10_no_total_frame_witness :
    (handleInputChange [siteB, siteA] 0 0 0 7).get? 1 = [siteB, siteA].get? 1
    ∧ (handleInputChange [siteB, siteA] 0 0 0 7).get? 0
        = some { siteB with rows := modifyAt siteB.rows 0 (setCell 0 7) } :=
  ⟨(C10_no_total_frame [siteB, siteA] 0 0 0 7 siteB rfl
      (by intro r hr; fin_cases hr; simp [mkRow])).1 1 (by decide),
   (C10_no_total_frame [siteB, siteA] 0 0 0 7 siteB rfl
      (by intro r hr; fin_cases hr; simp [mkRow])).2.1⟩

/-! ### C4 — the active view of a year -/

/-- A site whose `startYear` (the spec's `activationYear`) is 2026. -/
def futSite : SiteData := { mkSite "sf" [] with startYear := some 2026 }

/-- A state whose 2025 ledger entry was materialized containing `futSite`. -/
def c4State : AppState :=
  { templateSites := [], dataByYear := [(2025, [futSite])], archivesByYear := [] }

/-- C4 as stated is false: the code applies the `startYear` filter to a
materialized entry too, so `getActiveSites` does not return the year's
materialized entry as-is when that entry contains a site with a future
`startYear`. -/
theorem C4_materialized_counterexample :
    lookupYear c4State.dataByYear 2025 = some [futSite]
    ∧ currentSitesData c4State 2025 = []
    ∧ currentSitesData c4State 2025 ≠ [futSite] := by
  refine ⟨rfl, ?_, ?_⟩
  · simp [currentSitesData, c4State, lookupYear, sitePassesYear, futSite, mkSite]
  · simp [currentSitesData, c4State, lookupYear, sitePassesYear, futSite, mkSite]

/-- **C4** (amended). `getActiveSites(year)` returns the materialized entry
when one exists — filtered by the `startYear` test (so it is the entry itself
whenever no site of the entry has a future `startYear`) — and otherwise the
template filtered the same way; consequently a site with a `startYear` never
appears in the active view of an earlier fiscal year. -/
theorem C4_active_view (st : AppState) (year : Nat) :
    (∀ entry, lookupYear st.dataByYear year = some entry →
        currentSitesData st year = entry.filter (fun s => sitePassesYear s year)
        ∧ ((∀ x ∈ entry, sitePassesYear x year = true) → currentSitesData st year = entry))
    ∧ (lookupYear st.dataByYear year = none →
        currentSitesData st year = st.templateSites.filter (fun s => sitePassesYear s year))
    ∧ (∀ s ∈ currentSitesData st year, ∀ ay, s.startYear = some ay → ay ≤ year) := by
  refine ⟨?_, ?_, ?_⟩
  · intro entry h
    have heq : currentSitesData st year = entry.filter (fun s => sitePassesYear s year) := by
      rw [currentSitesData, h]
    refine ⟨heq, fun hall => ?_⟩
    rw [heq, List.filter_eq_self]
    exact hall
  · intro h
    rw [currentSitesData, h]
  · intro s hs ay hay
    have hpass : sitePassesYear s year = true := by
      rw [currentSitesData] at hs
      exact (List.mem_filter.mp hs).2
    rw [sitePassesYear, hay] at hpass
    exact of_decide_eq_true hpass

/-- Witness for C4 (amended) at the concrete state. -/
theorem C4_active_view_witness :
    currentSitesData c4State 2025 = [futSite].filter (fun s => sitePassesYear s 2025) :=
  ((C4_active_view c4State 2025).1 [futSite] rfl).1

/-! ### C6 — archive/restore of an absent id is a complete no-op -/

/-- **C6** (confirmed). `archiveSite` with an id absent from the year's active
list, and `restoreSite` with an id absent from the year's archive list, leave
the whole state unchanged (in particular both the active and the archive
list); being total functions they throw nothing and apply nothing
partially. -/
theorem C6_notfound_noop (st : AppState) (year : Nat) (siteId : String) :
    ((∀ x ∈ currentSitesData st year, x.id ≠ siteId) →
      handleArchiveSite st year siteId = st)
    ∧ ((∀ x ∈ currentArchivedData st year, x.id ≠ siteId) →
      handleRestoreSite st year siteId = st) := by
  constructor
  · intro h
    have hnone : (currentSitesData st year).find? (fun s => s.id == siteId) = none := by
      rw [List.find?_eq_none]
      intro x hx
      simpa using h x hx
    rw [handleArchiveSite, hnone]
  · intro h
    have hnone : (currentArchivedData st year).find? (fun s => s.id == siteId) = none := by
      rw [List.find?_eq_none]
      intro x hx
      simpa using h x hx
    rw [handleRestoreSite, hnone]

/-- A small state for the C6 witness. -/
def c6State : AppState :=
  { templateSites := [siteA], dataByYear := [(2026, [siteA])],
    archivesByYear := [(2026, [siteB])] }

/-- Witness for C6: archiving and restoring an unknown id changes nothing. -/
theorem C6_notfound_noop_witness :
    handleArchiveSite c6State 2026 "nope" = c6State
    ∧ handleRestoreSite c6State 2026 "nope" = c6State :=
  ⟨(C6_notfound_noop c6State 2026 "nope").1 (by
      intro x hx
      simp [currentSitesData, c6State, lookupYear, sitePassesYear, siteA, mkSite] at hx
      subst hx
      simp [siteA, mkSite]),
   (C6_notfound_noop c6State 2026 "nope").2 (by
      intro x hx
      simp [currentArchivedData, c6State, lookupYear] at hx
      subst hx
      simp [siteB, mkSite])⟩

/-! ### C3 — propagation boundary of a globally added site -/

lemma appendIfMissing_eq_append {l : List SiteData} {s : SiteData}
    (h : ∀ x ∈ l, x.id ≠ s.id) : appendIfMissing l s = l ++ [s] := by
  have hany : l.any (fun x => x.id == s.id) = false := by
    rw [List.any_eq_false]
    intro x hx
    simpa using h x hx
  rw [appendIfMissing, hany]
  simp

lemma handleGlobalAddSite_lookup (st : AppState) (Y : Nat) (s : SiteData) (y : Nat)
    (hy : y ≠ Y) :
    lookupYear (handleGlobalAddSite st Y s).dataByYear y
      = (lookupYear st.dataByYear y).map
          (fun l => if Y < y then appendIfMissing l s else l) := by
  cases hm : lookupYear st.dataByYear Y with
  | none =>
    simp only [handleGlobalAddSite, hm]
    rw [lookupYear_map (fun y' l => if Y < y' then appendIfMissing l s else l),
      lookupYear_setYear_ne _ _ (Ne.symm hy)]
  | some l0 =>
    simp only [handleGlobalAddSite, hm]
    rw [lookupYear_map (fun y' l => if Y < y' then appendIfMissing l s else l),
      lookupYear_setYear_ne _ _ (Ne.symm hy)]

/-- **C3** (confirmed). `addSiteGlobally(s)` with current year `Y` leaves every
materialized year strictly before `Y` unchanged (and `s.id` absent from it,
when it was absent before), and appends `s` to every materialized year
strictly after `Y` in which no site with id `s.id` is present. -/
theorem C3_propagation_boundary (st : AppState) (Y : Nat) (s : SiteData) :
    (∀ y, y < Y →
      lookupYear (handleGlobalAddSite st Y s).dataByYear y = lookupYear st.dataByYear y)
    ∧ (∀ y l, y < Y → lookupYear st.dataByYear y = some l → (∀ x ∈ l, x.id ≠ s.id) →
        ∀ x ∈ (lookupYear (handleGlobalAddSite st Y s).dataByYear y).getD [], x.id ≠ s.id)
    ∧ (∀ y l, Y < y → lookupYear st.dataByYear y = some l → (∀ x ∈ l, x.id ≠ s.id) →
        lookupYear (handleGlobalAddSite st Y s).dataByYear y = some (l ++ [s])) := by
  have hbefore : ∀ y, y < Y →
      lookupYear (handleGlobalAddSite st Y s).dataByYear y = lookupYear st.dataByYear y := by
    intro y hy
    rw [handleGlobalAddSite_lookup st Y s y (Nat.ne_of_lt hy)]
    cases lookupYear st.dataByYear y <;> simp [Nat.lt_asymm hy]
  refine ⟨hbefore, ?_, ?_⟩
  · intro y l hy hl hids
    rw [hbefore y hy, hl]
    simpa using hids
  · intro y l hy hl hids
    rw [handleGlobalAddSite_lookup st Y s y (Ne.symm (Nat.ne_of_lt hy)), hl,
      Option.map_some']
    rw [if_pos hy, appendIfMissing_eq_append hids]

/-- A state with 2025 and 2027 materialized, for the C3 witness. -/
def c3State : AppState :=
  { templateSites := [siteA], dataByYear := [(2025, [siteA]), (2027, [siteA])],
    archivesByYear := [] }

def siteNew : SiteData := mkSite "snew" []

/-- Witness for C3 with current year 2026: 2025 untouched, 2027 extended. -/
theorem C3_propagation_boundary_witness :
    lookupYear (handleGlobalAddSite c3State 2026 siteNew).dataByYear 2025
      = lookupYear c3State.dataByYear 2025
    ∧ lookupYear (handleGlobalAddSite c3State 2026 siteNew).dataByYear 2027
      = some ([siteA] ++ [siteNew]) :=
  ⟨(C3_propagation_boundary c3State 2026 siteNew).1 2025 (by decide),
   (C3_propagation_boundary c3State 2026 siteNew).2.2 2027 [siteA] (by decide) rfl
     (by intro x hx; simp at hx; subst hx; simp [siteA, siteNew, mkSite])⟩

/-! ### C5 — metadata updates reach every collection, and only metadata -/

/-- How one site is related to its image under `updateSiteMetadata(siteId, u)`:
id, rows and `startYear` are untouched; a matching site gets the partial
name/meter update; a non-matching site is untouched entirely. -/
def metadataUpdated (u : SiteMetadataUpdate) (siteId : String) (s s' : SiteData) : Prop :=
  s'.id = s.id ∧ s'.rows = s.rows ∧ s'.startYear = s.startYear
  ∧ (s.id = siteId →
      s'.name = u.name.getD s.name ∧ s'.meterNumber = u.meterNumber.getD s.meterNumber)
  ∧ (s.id ≠ siteId → s' = s)

lemma updateList_get? (u : SiteMetadataUpdate) (siteId : String) (l : List SiteData)
    (i : Nat) (s : SiteData) (h : l.get? i = some s) :
    ∃ s', (updateList u siteId l).get? i = some s' ∧ metadataUpdated u siteId s s' := by
  rw [updateList, List.get?_map, h, Option.map_some']
  refine ⟨_, rfl, ?_⟩
  by_cases hid : s.id = siteId
  · have hb : (s.id == siteId) = true := by simpa using hid
    rw [hb]
    simp only [if_true]
    exact ⟨rfl, rfl, rfl, fun _ => ⟨rfl, rfl⟩, fun hne => absurd hid hne⟩
  · have hb : (s.id == siteId) = false := by simpa using hid
    rw [hb]
    simp only [Bool.false_eq_true, if_false]
    exact ⟨rfl, rfl, rfl, fun heq => absurd heq hid, fun _ => rfl⟩

/-- **C5** (confirmed). `updateSiteMetadata(siteId, u)` rewrites, position by
position, every site of the template, of every materialized year, and of
every archived year: a site with the matching id receives exactly the partial
name/meter update (its id, rows and `startYear` unchanged), any other site is
returned unchanged; no ledger entry appears or disappears and no list changes
length. -/
theorem C5_metadata_everywhere (st : AppState) (siteId : String) (u : SiteMetadataUpdate) :
    ((handleSiteMetadataUpdate st siteId u).templateSites.length = st.templateSites.length
      ∧ ∀ i s, st.templateSites.get? i = some s →
        ∃ s', (handleSiteMetadataUpdate st siteId u).templateSites.get? i = some s'
          ∧ metadataUpdated u siteId s s')
    ∧ (∀ y, lookupYear (handleSiteMetadataUpdate st siteId u).dataByYear y
        = (lookupYear st.dataByYear y).map (updateList u siteId)
      ∧ ∀ l, lookupYear st.dataByYear y = some l →
        ∀ i s, l.get? i = some s →
          ∃ s', (updateList u siteId l).get? i = some s' ∧ metadataUpdated u siteId s s')
    ∧ (∀ y, lookupYear (handleSiteMetadataUpdate st siteId u).archivesByYear y
        = (lookupYear st.archivesByYear y).map (updateList u siteId)
      ∧ ∀ l, lookupYear st.archivesByYear y = some l →
        ∀ i s, l.get? i = some s →
          ∃ s', (updateList u siteId l).get? i = some s' ∧ metadataUpdated u siteId s s') := by
  refine ⟨⟨?_, ?_⟩, ?_, ?_⟩
  · rw [handleSiteMetadataUpdate]
    exact List.length_map _ _
  · intro i s h
    exact updateList_get? u siteId _ i s h
  · intro y
    refine ⟨?_, fun l _ i s h => updateList_get? u siteId l i s h⟩
    rw [handleSiteMetadataUpdate]
    exact lookupYear_map (fun _ l => updateList u siteId l) st.dataByYear y
  · intro y
    refine ⟨?_, fun l _ i s h => updateList_get? u siteId l i s h⟩
    rw [handleSiteMetadataUpdate]
    exact lookupYear_map (fun _ l => updateList u siteId l) st.archivesByYear y

def c5Upd : SiteMetadataUpdate := { name := some "renamed", meterNumber := none }

/-- Witness for C5: the template's first site receives the update. -/
theorem C5_metadata_everywhere_witness :
    ∃ s', (handleSiteMetadataUpdate c6State "s1" c5Upd).templateSites.get? 0 = some s'
      ∧ metadataUpdated c5Upd "s1" siteA s' :=
  (C5_metadata_everywhere c6State "s1" c5Upd).1.2 0 siteA rfl

/-! ### C2 and C9 — the archive lifecycle -/

lemma find?_split (p : α → Bool) (l : List α) (a : α) (h : l.find? p = some a) :
    ∃ l1 l2, l = l1 ++ a :: l2 ∧ (∀ x ∈ l1, p x = false) ∧ p a = true := by
  induction l with
  | nil => simp at h
  | cons x xs ih =>
    by_cases hx : p x = true
    · rw [List.find?_cons_of_pos _ hx] at h
      obtain rfl : x = a := by injection h
      exact ⟨[], xs, rfl, by simp, hx⟩
    · rw [List.find?_cons_of_neg _ hx] at h
      obtain ⟨l1, l2, rfl, hl1, hpa⟩ := ih h
      refine ⟨x :: l1, l2, rfl, ?_, hpa⟩
      intro z hz
      rcases List.mem_cons.mp hz with rfl | hz'
      · simpa using hx
      · exact hl1 z hz'

lemma filter_eq_singleton (p : α → Bool) (l : List α) (a : α)
    (hfind : l.find? p = some a) (hcount : l.countP p = 1) : l.filter p = [a] := by
  induction l with
  | nil => simp at hfind
  | cons x xs ih =>
    by_cases hx : p x = true
    · rw [List.find?_cons_of_pos _ hx] at hfind
      obtain rfl : x = a := by injection hfind
      rw [List.countP_cons_of_pos _ _ hx] at hcount
      have h0 : xs.countP p = 0 := by omega
      have hnil : xs.filter p = [] :=
        List.filter_eq_nil_iff.mpr (List.countP_eq_zero.mp h0)
      rw [List.filter_cons_of_pos hx, hnil]
    · rw [List.find?_cons_of_neg _ hx] at hfind
      rw [List.countP_cons_of_neg _ _ (by simpa using hx)] at hcount
      rw [List.filter_cons_of_neg (by simpa using hx)]
      exact ih hfind hcount

lemma find?_append_none (p : α → Bool) (l1 l2 : List α) (h : l1.find? p = none) :
    (l1 ++ l2).find? p = l2.find? p := by
  induction l1 with
  | nil => simp
  | cons x xs ih =>
    rw [List.find?_eq_none] at h
    have hx : ¬ p x = true := h x (by simp)
    rw [List.cons_append, List.find?_cons_of_neg _ hx]
    exact ih (List.find?_eq_none.mpr (fun y hy => h y (by simp [hy])))

/-- **C2** (confirmed, with the claim's presuppositions made explicit: the id
occurs — exactly once — in the year's active view, and not in the year's
archive).  Archiving then restoring the site restores the archive list
exactly, moves the archived Site value (deep-equal, it is the same value) to
the end of the active list, and the resulting active list is a permutation
(set-equal) of the pre-archive one. -/
theorem C2_archive_restore_roundtrip (st : AppState) (year : Nat) (siteId : String)
    (s0 : SiteData)
    (hfind : (currentSitesData st year).find? (fun s => s.id == siteId) = some s0)
    (hcount : (currentSitesData st year).countP (fun s => s.id == siteId) = 1)
    (harch : ∀ x ∈ currentArchivedData st year, x.id ≠ siteId) :
    currentSitesData (handleRestoreSite (handleArchiveSite st year siteId) year siteId) year
      = (currentSitesData st year).filter (fun s => !(s.id == siteId)) ++ [s0]
    ∧ (currentSitesData (handleRestoreSite (handleArchiveSite st year siteId) year siteId)
        year).Perm (currentSitesData st year)
    ∧ currentArchivedData (handleRestoreSite (handleArchiveSite st year siteId) year siteId)
        year = currentArchivedData st year := by
  have hpass : ∀ x ∈ currentSitesData st year, sitePassesYear x year = true := by
    intro x hx
    rw [currentSitesData] at hx
    exact (List.mem_filter.mp hx).2
  have hid0 : s0.id = siteId := by simpa using List.find?_some hfind
  -- the state after archiving
  set st1 := handleArchiveSite st year siteId with hst1
  have hst1eq : st1 = { handleDataChange st year ((currentSitesData st year).filter (fun s => !(s.id == siteId))) with archivesByYear := setYear st.archivesByYear year (currentArchivedData st year ++ [s0]) } := by
    rw [hst1, handleArchiveSite, hfind]
  have h1data : lookupYear st1.dataByYear year
      = some ((currentSitesData st year).filter (fun s => !(s.id == siteId))) := by
    rw [hst1eq, handleDataChange]
    exact lookupYear_setYear_self _ _ _
  have h1arch : currentArchivedData st1 year = currentArchivedData st year ++ [s0] := by
    rw [currentArchivedData, hst1eq]
    simp only
    rw [lookupYear_setYear_self]
    rfl
  have h1active : currentSitesData st1 year
      = (currentSitesData st year).filter (fun s => !(s.id == siteId)) := by
    rw [currentSitesData, h1data, List.filter_eq_self]
    intro x hx
    exact hpass x (List.mem_of_mem_filter hx)
  -- the restore finds s0 at the end of the archive
  have hfind1 : (currentArchivedData st1 year).find? (fun s => s.id == siteId) = some s0 := by
    rw [h1arch, find?_append_none _ _ _ (List.find?_eq_none.mpr (fun x hx => by
      simpa using harch x hx))]
    simp [List.find?, hid0]
  -- the state after restoring
  set st2 := handleRestoreSite st1 year siteId with hst2
  have hst2eq : st2 = handleDataChange { st1 with archivesByYear := setYear st1.archivesByYear year ((currentArchivedData st1 year).filter (fun s => !(s.id == siteId))) } year (currentSitesData st1 year ++ [s0]) := by
    rw [hst2, handleRestoreSite, hfind1]
  have h2data : lookupYear st2.dataByYear year
      = some (currentSitesData st1 year ++ [s0]) := by
    rw [hst2eq, handleDataChange]
    exact lookupYear_setYear_self _ _ _
  have hs0mem : s0 ∈ currentSitesData st year := List.mem_of_find?_eq_some hfind
  have h2active : currentSitesData st2 year = currentSitesData st1 year ++ [s0] := by
    rw [currentSitesData, h2data, List.filter_eq_self]
    intro x hx
    rcases List.mem_append.mp hx with hx1 | hx1
    · rw [h1active] at hx1
      exact hpass x (List.mem_of_mem_filter hx1)
    · rw [List.mem_singleton.mp hx1]
      exact hpass s0 hs0mem
  have h2arch : currentArchivedData st2 year = currentArchivedData st year := by
    have : st2.archivesByYear = setYear st1.archivesByYear year
        ((currentArchivedData st1 year).filter (fun s => !(s.id == siteId))) := by
      rw [hst2eq, handleDataChange]
    rw [currentArchivedData, this, lookupYear_setYear_self]
    rw [h1arch, List.filter_append]
    have hA : (currentArchivedData st year).filter (fun s => !(s.id == siteId))
        = currentArchivedData st year := by
      rw [List.filter_eq_self]
      intro x hx
      simpa using harch x hx
    have hs0 : ([s0].filter (fun s => !(s.id == siteId))) = [] := by
      simp [List.filter, hid0]
    rw [hA, hs0, List.append_nil]
    rfl
  refine ⟨by rw [h2active, h1active], ?_, h2arch⟩
  · rw [h2active, h1active]
    have hsing : (currentSitesData st year).filter (fun s => s.id == siteId) = [s0] :=
      filter_eq_singleton _ _ _ hfind hcount
    have hperm := List.filter_append_perm (fun s => s.id == siteId) (currentSitesData st year)
    rw [hsing] at hperm
    exact List.Perm.trans List.perm_append_comm hperm

/-- A two-site active list for the C2 witness. -/
def c2State : AppState :=
  { templateSites := [], dataByYear := [(2026, [siteA, siteB])], archivesByYear := [] }

/-- Witness for C2: archiving then restoring `"s1"` in 2026. -/
theorem C2_archive_restore_roundtrip_witness :
    currentSitesData (handleRestoreSite (handleArchiveSite c2State 2026 "s1") 2026 "s1") 2026
      = (currentSitesData c2State 2026).filter (fun s => !(s.id == "s1")) ++ [siteA]
    ∧ (currentSitesData (handleRestoreSite (handleArchiveSite c2State 2026 "s1") 2026 "s1")
        2026).Perm (currentSitesData c2State 2026)
    ∧ currentArchivedData (handleRestoreSite (handleArchiveSite c2State 2026 "s1") 2026 "s1")
        2026 = currentArchivedData c2State 2026 :=
  C2_archive_restore_roundtrip c2State 2026 "s1" siteA rfl rfl
    (by intro x hx; simp [currentArchivedData, c2State, lookupYear] at hx)

/-- **C9** (confirmed, under the presupposition that the id occurs exactly
once in the year's archive).  `restoreSite` removes exactly that site from
the archive, preserving the relative order of the remaining archived sites,
and appends it as the last element of the year's (stored) active list, whose
previous elements — the pre-restore active view — keep their relative
order. -/
theorem C9_restore_moves_site (st : AppState) (year : Nat) (siteId : String) (s0 : SiteData)
    (hfind : (currentArchivedData st year).find? (fun s => s.id == siteId) = some s0)
    (hcount : (currentArchivedData st year).countP (fun s => s.id == siteId) = 1) :
    ∃ l1 l2, currentArchivedData st year = l1 ++ s0 :: l2
      ∧ (∀ x ∈ l1, x.id ≠ siteId) ∧ (∀ x ∈ l2, x.id ≠ siteId)
      ∧ lookupYear (handleRestoreSite st year siteId).archivesByYear year = some (l1 ++ l2)
      ∧ lookupYear (handleRestoreSite st year siteId).dataByYear year
          = some (currentSitesData st year ++ [s0]) := by
  obtain ⟨l1, l2, hsplit, hl1, hps0⟩ := find?_split _ _ _ hfind
  have hid0 : s0.id = siteId := by simpa using hps0
  have hl2 : ∀ x ∈ l2, (x.id == siteId) = false := by
    rw [hsplit] at hcount
    rw [List.countP_append, List.countP_cons, if_pos hps0] at hcount
    have h1 : l1.countP (fun s => s.id == siteId) = 0 :=
      List.countP_eq_zero.mpr (fun a ha => by simp [hl1 a ha])
    have h2 : l2.countP (fun s => s.id == siteId) = 0 := by omega
    exact fun x hx => by
      have := List.countP_eq_zero.mp h2 x hx
      simpa using this
  have hrest : handleRestoreSite st year siteId = handleDataChange { st with archivesByYear := setYear st.archivesByYear year ((currentArchivedData st year).filter (fun s => !(s.id == siteId))) } year (currentSitesData st year ++ [s0]) := by
    rw [handleRestoreSite, hfind]
  have hfilter : (currentArchivedData st year).filter (fun s => !(s.id == siteId))
      = l1 ++ l2 := by
    rw [hsplit, List.filter_append, List.filter_cons_of_neg (by simp [hps0])]
    rw [List.filter_eq_self.mpr (fun a ha => by simp [hl1 a ha]),
      List.filter_eq_self.mpr (fun a ha => by simp [hl2 a ha])]
  refine ⟨l1, l2, hsplit, ?_, ?_, ?_, ?_⟩
  · intro x hx
    have := hl1 x hx
    simpa using this
  · intro x hx
    have := hl2 x hx
    simpa using this
  · rw [hrest, handleDataChange]
    simp only
    rw [lookupYear_setYear_self, hfilter]
  · rw [hrest, handleDataChange]
    simp only
    rw [lookupYear_setYear_self]

/-- A state with one archived site for the C9 witness. -/
def c9State : AppState :=
  { templateSites := [], dataByYear := [(2026, [siteB])],
    archivesByYear := [(2026, [siteA])] }

/-- Witness for C9: restoring the only archived site. -/
theorem C9_restore_moves_site_witness :
    ∃ l1 l2, currentArchivedData c9State 2026 = l1 ++ siteA :: l2
      ∧ (∀ x ∈ l1, x.id ≠ "s1") ∧ (∀ x ∈ l2, x.id ≠ "s1")
      ∧ lookupYear (handleRestoreSite c9State 2026 "s1").archivesByYear 2026
          = some (l1 ++ l2)
      ∧ lookupYear (handleRestoreSite c9State 2026 "s1").dataByYear 2026
          = some (currentSitesData c9State 2026 ++ [siteA]) :=
  C9_restore_moves_site c9State 2026 "s1" siteA rfl rfl

/-! ### C7 — the per-month grand total -/

/-- A rational that is an integer number of hundredths (i.e. exactly
representable at the code's 2-decimal storage precision). -/
def centMult (q : ℚ) : Prop := ∃ n : ℤ, q = n / 100

lemma centMult_zero : centMult 0 := ⟨0, by norm_num⟩

lemma centMult_add {a b : ℚ} (ha : centMult a) (hb : centMult b) : centMult (a + b) := by
  obtain ⟨m, rfl⟩ := ha
  obtain ⟨n, rfl⟩ := hb
  exact ⟨m + n, by push_cast; ring⟩

/-- Function `safeFloat` fixes every value that is already a whole number of
hundredths: the `Number.EPSILON` nudge (2⁻⁵² · 100 < 1/2) cannot move it to
the next hundredth. -/
lemma safeFloat_centMult {q : ℚ} (h : centMult q) : safeFloat q = q := by
  obtain ⟨n, rfl⟩ := h
  rw [safeFloat, jsEpsilon]
  have harg : ((n : ℚ) / 100 + 1 / 2 ^ 52) * 100 + 1 / 2
      = (n : ℚ) + (100 / 2 ^ 52 + 1 / 2) := by ring
  rw [harg, Int.floor_int_add]
  have hfrac : ⌊(100 / 2 ^ 52 + 1 / 2 : ℚ)⌋ = 0 := by norm_num
  rw [hfrac, add_zero]

/-- The rounded inner fold over a site's cost rows agrees with the exact fold
when the accumulator and every row value are whole hundredths. -/
lemma foldl_safeFloat_eq_exact (month : Month) (l : List ConsumptionRow)
    (hl : ∀ r ∈ l, centMult (r.values month)) :
    ∀ acc : ℚ, centMult acc →
      l.foldl (fun a r => safeFloat (a + r.values month)) acc
        = l.foldl (fun a r => a + r.values month) acc
      ∧ centMult (l.foldl (fun a r => a + r.values month) acc) := by
  induction l with
  | nil => exact fun acc hacc => ⟨rfl, hacc⟩
  | cons x xs ih =>
    intro acc hacc
    have hx : centMult (x.values month) := hl x (by simp)
    have hsum : centMult (acc + x.values month) := centMult_add hacc hx
    have hxs : ∀ r ∈ xs, centMult (r.values month) := fun r hr => hl r (by simp [hr])
    obtain ⟨h1, h2⟩ := ih hxs (acc + x.values month) hsum
    refine ⟨?_, h2⟩
    rw [List.foldl_cons, List.foldl_cons, safeFloat_centMult hsum, h1]

/-- The data after two `setCellValue` calls writing 0.004 into the single
cost rows of two sites that have no CALCULATED_TOTAL row. -/
def c7Base : List SiteData :=
  [mkSite "t1" [mkRow "r1" RowType.INPUT true zeroVals],
   mkSite "t2" [mkRow "r2" RowType.INPUT true zeroVals]]

def c7Data : List SiteData := applyEdits c7Base [(0, 0, 0, 1 / 250), (1, 0, 0, 1 / 250)]

/-- C7 as stated is false: with two sites holding 0.004 in their cost rows
(reached by two `setCellValue` calls), the implementation's grand total for
the month is 0 — it rounds to 2 decimals after every addition — while the sum
of the sites' contributions is 0.008. -/
theorem C7_rounding_counterexample :
    grandTotalsMonth c7Data 0 = 0 ∧ grandTotalSpec c7Data 0 = 1 / 125
    ∧ grandTotalsMonth c7Data 0 ≠ grandTotalSpec c7Data 0 := by
  have h1 : grandTotalsMonth c7Data 0 = 0 := by
    simp [c7Data, c7Base, applyEdits, handleInputChange, editSite, modifyAt, findIndex,
      mkSite, mkRow, grandTotalsMonth, grandStep, isTotalRow, setCell, updateMonth,
      zeroVals, List.foldl, List.find?, List.filter, rowType_beq]
    norm_num [safeFloat, jsEpsilon]
  have h2 : grandTotalSpec c7Data 0 = 1 / 125 := by
    simp [c7Data, c7Base, applyEdits, handleInputChange, editSite, modifyAt, findIndex,
      mkSite, mkRow, grandTotalSpec, grandStepSpec, isTotalRow, setCell, updateMonth,
      zeroVals, List.foldl, List.find?, List.filter, rowType_beq]
    norm_num
  refine ⟨h1, h2, ?_⟩
  rw [h1, h2]
  norm_num

/-- **C7** (amended). The per-month grand total is recomputed from the current
site list on every read as a rounding-safe running sum (`safeFloat` after
every addition) of each site's CALCULATED_TOTAL row value — a site without a
CALCULATED_TOTAL row contributing its `isCost = true` rows; whenever every
stored value is a whole number of hundredths (the code's 2-decimal storage
precision) this equals the exact sum the claim states. -/
theorem C7_grand_total (data : List SiteData) (month : Month)
    (h : ∀ site ∈ data, ∀ r ∈ site.rows, centMult (r.values month)) :
    grandTotalsMonth data month = grandTotalSpec data month := by
  rw [grandTotalsMonth, grandTotalSpec]
  suffices haux : ∀ acc : ℚ, centMult acc →
      data.foldl (grandStep month) acc = data.foldl (grandStepSpec month) acc
      ∧ centMult (data.foldl (grandStepSpec month) acc) from
    (haux 0 centMult_zero).1
  induction data with
  | nil => exact fun acc hacc => ⟨rfl, hacc⟩
  | cons site rest ih =>
    intro acc hacc
    have hsite : ∀ r ∈ site.rows, centMult (r.values month) := h site (by simp)
    have hrest : ∀ s ∈ rest, ∀ r ∈ s.rows, centMult (r.values month) :=
      fun s hs => h s (by simp [hs])
    have hstep : grandStep month acc site = grandStepSpec month acc site
        ∧ centMult (grandStepSpec month acc site) := by
      rw [grandStep, grandStepSpec]
      cases hf : site.rows.find? isTotalRow with
      | some t =>
        have ht : centMult (t.values month) := hsite t (List.mem_of_find?_eq_some hf)
        have hsum : centMult (acc + t.values month) := centMult_add hacc ht
        exact ⟨safeFloat_centMult hsum, hsum⟩
      | none =>
        have hfil : ∀ r ∈ site.rows.filter (fun r => r.isCost), centMult (r.values month) :=
          fun r hr => hsite r (List.mem_of_mem_filter hr)
        exact foldl_safeFloat_eq_exact month _ hfil acc hacc
    have := ih hrest (grandStepSpec month acc site) hstep.2
    rw [List.foldl_cons, List.foldl_cons, hstep.1]
    exact this

/-- Witness for C7 (amended) at the all-zero base data. -/
theorem C7_grand_total_witness :
    (∀ site ∈ c7Base, ∀ r ∈ site.rows, centMult (r.values 0))
    ∧ grandTotalsMonth c7Base 0 = grandTotalSpec c7Base 0 := by
  have hcent : ∀ site ∈ c7Base, ∀ r ∈ site.rows, centMult (r.values 0) := by
    intro site hs r hr
    fin_cases hs <;> fin_cases hr <;> exact ⟨0, by norm_num [zeroVals, mkRow]⟩
  exact ⟨hcent, C7_grand_total c7Base 0 hcent⟩

/-! ### C8 — attachment upload policy -/

def att1 : Attachment := { id := "a1", name := "f1", mimeType := "text/plain", payload := "" }

def att2 : Attachment := { id := "a2", name := "f2", mimeType := "text/plain", payload := "" }

/-- The attachment list of one row of one site of a site list. -/
def rowAttachments (data : List SiteData) (si ri : Nat) : List Attachment :=
  match data.get? si with
  | none => []
  | some s =>
    match s.rows.get? ri with
    | none => []
    | some r => r.attachments

/-- C8 as stated is false: two uploads to the same row leave the row with two
attachments — `handleFileSelect` appends to the existing list instead of
replacing it. -/
theorem C8_upload_counterexample :
    rowAttachments (uploadAttachment (uploadAttachment [siteB] 0 0 att1) 0 0 att2) 0 0
      = [att1, att2]
    ∧ ¬ (rowAttachments (uploadAttachment (uploadAttachment [siteB] 0 0 att1) 0 0 att2)
          0 0).length ≤ 1 := by
  constructor
  · simp [rowAttachments, uploadAttachment, modifyAt, siteB, mkSite, mkRow]
  · simp [rowAttachments, uploadAttachment, modifyAt, siteB, mkSite, mkRow]

/-- **C8** (amended). Uploading an attachment to a row appends it after any
existing attachments (it replaces nothing and removes nothing): the targeted
row's list becomes its old list plus the new attachment at the end, every
other row and every other site being unchanged.  A row can therefore carry
arbitrarily many attachments. -/
theorem C8_upload_appends (data : List SiteData) (si ri : Nat) (att : Attachment)
    (site : SiteData) (r : ConsumptionRow)
    (hs : data.get? si = some site) (hr : site.rows.get? ri = some r) :
    rowAttachments (uploadAttachment data si ri att) si ri = r.attachments ++ [att]
    ∧ (∀ k, k ≠ ri →
        ∀ s', (uploadAttachment data si ri att).get? si = some s' →
          s'.rows.get? k = site.rows.get? k)
    ∧ (∀ j, j ≠ si → (uploadAttachment data si ri att).get? j = data.get? j) := by
  have hget : (uploadAttachment data si ri att).get? si
      = some { site with rows := modifyAt site.rows ri (fun row => { row with attachments := row.attachments ++ [att] }) } := by
    rw [uploadAttachment, modifyAt_get?, if_pos rfl, hs, Option.map_some']
  refine ⟨?_, ?_, ?_⟩
  · rw [rowAttachments, hget]
    simp only
    rw [modifyAt_get?, if_pos rfl, hr, Option.map_some']
  · intro k hk s' hs'
    rw [hget] at hs'
    obtain rfl := Option.some.inj hs'
    simp only
    rw [modifyAt_get?, if_neg (fun hrk => hk hrk.symm)]
  · intro j hj
    rw [uploadAttachment, modifyAt_get?, if_neg (fun hsj => hj hsj.symm)]

/-- Witness for C8 (amended): one upload to `siteB`'s only row. -/
theorem C8_upload_appends_witness :
    rowAttachments (uploadAttachment [siteB] 0 0 att1) 0 0
      = (mkRow "r1" RowType.INPUT true zeroVals).attachments ++ [att1] :=
  (C8_upload_appends [siteB] 0 0 att1 siteB (mkRow "r1" RowType.INPUT true zeroVals)
    rfl rfl).1

end RecordWaterElc
